import Mathlib

/-!
Shallow embedding of the `modl` repository's `DictFact` estimator
(`src/modl/dict_fact.py`), the sklearn-style wrapper driving the online
dictionary-factorization core `DictFactImpl`.  The Cython core
(`modl/dict_fact_fast`) is not part of the repository's source files; where
its behaviour decides a property it is modelled from the spec, and each such
definition carries a doc comment saying so.  Machine floats are modelled as
`Option ℚ`: `some q` is a finite value, `none` a non-finite one (NaN or
infinity); the wrapper layer only moves batches around and checks them, so
no floating-point rounding enters any claim settled here.
-/

namespace Modl

/-- One entry of an input batch: `some q` models a finite floating-point
value, `none` a non-finite one (NaN or infinity). -/
abbrev Val := Option ℚ

/-- One row (sample) of an input batch. -/
abbrev Row := List Val

/-- An input batch `X`, row-major, as handed to `fit`/`partial_fit`/`transform`. -/
abbrev Batch := List Row

/-- The Python exceptions the wrapper layer raises. -/
inductive Err where
  | valueError (msg : String)
  | keyError (key : String)
deriving DecidableEq

/-- The message carried by an exception (`str(e)`). -/
def Err.message : Err → String
  | .valueError msg => msg
  | .keyError key => key

/-- A row holds only finite values. -/
def rowFinite (r : Row) : Bool := r.all fun v => v.isSome

/-- A batch holds only finite values. -/
def batchFinite (X : Batch) : Bool := X.all rowFinite

/-- `sklearn.utils.check_array` as called in `dict_fact.py`
(`dtype` float, `order` C, default `force_all_finite=True`,
`ensure_min_samples=1`): rejects non-finite entries, then empty batches;
the dtype/order conversion is the identity in this embedding. -/
def check_array (X : Batch) : Except Err Batch :=
  if batchFinite X = false then
    .error (.valueError "Input contains NaN, infinity or a value too large for dtype float64.")
  else if X.length = 0 then
    .error (.valueError "Found array with 0 sample(s) while a minimum of 1 is required.")
  else .ok X

/-- The `dict_reduction` constructor argument: the string `follow`, the
string `same`, or a numeric value (lines 171-176 of `dict_fact.py`). -/
inductive DictReduction where
  | follow
  | same
  | value (v : ℚ)
deriving DecidableEq

/-- The constructor arguments of `DictFact.__init__` (lines 13-73), with the
source's defaults.  `dict_init` is modelled by its shape only (its entries
never influence the wrapper-level behaviour settled here); `verbose`,
`random_state` and `callback` are omitted as they affect no modelled
observable. -/
structure Config where
  n_components : ℕ := 30
  alpha : ℚ := 1
  l1_ratio : ℚ := 0
  pen_l1_ratio : ℚ := 0
  tol : ℚ := 1/1000
  learning_rate : ℚ := 1
  batch_size : ℕ := 1
  offset : ℚ := 0
  sample_learning_rate : Option ℚ := none
  reduction : ℚ := 1
  solver : String := "gram"
  weights : String := "sync"
  subset_sampling : String := "random"
  dict_reduction : DictReduction := .follow
  dict_init : Option (ℕ × ℕ) := none
  n_samples : Option ℕ := none
  max_n_iter : ℕ := 0
  n_epochs : ℕ := 1
  n_threads : ℕ := 1
deriving DecidableEq

/-- The `solver` lookup table of `_get_impl_params` (lines 157-161). -/
def solverCode : String → Option ℕ
  | "masked" => some 1
  | "gram" => some 2
  | "average" => some 3
  | _ => none

/-- The `weights` lookup table of `_get_impl_params` (lines 162-166).
Note the recognized keys are `sync`, `async_freq`, `async_prob` — not
`async`, despite the constructor comment. -/
def weightsCode : String → Option ℕ
  | "sync" => some 1
  | "async_freq" => some 2
  | "async_prob" => some 3
  | _ => none

/-- The `subset_sampling` lookup table of `_get_impl_params` (lines 167-170). -/
def subsetSamplingCode : String → Option ℕ
  | "random" => some 1
  | "cyclic" => some 2
  | _ => none

/-- The `dict_reduction` value computed at lines 171-176. -/
def dictReductionValue (c : Config) : ℚ :=
  match c.dict_reduction with
  | .follow => 0
  | .same => c.reduction
  | .value v => v

/-- The effective sample learning rate (lines 178-181): `None` defaults to
`2.5 - 2 * learning_rate`. -/
def effectiveSampleLearningRate (c : Config) : ℚ :=
  match c.sample_learning_rate with
  | none => 5/2 - 2 * c.learning_rate
  | some v => v

/-- The keyword arguments passed to the Cython core (the `res` dict of
`_get_impl_params`, lines 183-200; `verbose` and `callback` omitted, see
`Config`). -/
structure ImplParams where
  alpha : ℚ
  l1_ratio : ℚ
  pen_l1_ratio : ℚ
  tol : ℚ
  learning_rate : ℚ
  sample_learning_rate : ℚ
  offset : ℚ
  batch_size : ℕ
  solver : ℕ
  weights : ℕ
  subset_sampling : ℕ
  dict_reduction : ℚ
  reduction : ℚ
deriving DecidableEq

/-- `DictFact._get_impl_params` (lines 156-201).  The three dict lookups
raise `KeyError` on an unrecognized string, in the evaluation order of the
`res` dict literal: `solver`, then `weights`, then `subset_sampling`. -/
def _get_impl_params (c : Config) : Except Err ImplParams :=
  match solverCode c.solver with
  | none => .error (.keyError c.solver)
  | some sv =>
    match weightsCode c.weights with
    | none => .error (.keyError c.weights)
    | some wt =>
      match subsetSamplingCode c.subset_sampling with
      | none => .error (.keyError c.subset_sampling)
      | some ss =>
        .ok { alpha := c.alpha
              l1_ratio := c.l1_ratio
              pen_l1_ratio := c.pen_l1_ratio
              tol := c.tol
              learning_rate := c.learning_rate
              sample_learning_rate := effectiveSampleLearningRate c
              offset := c.offset
              batch_size := c.batch_size
              solver := sv
              weights := wt
              subset_sampling := ss
              dict_reduction := dictReductionValue c
              reduction := c.reduction }

/-- The state of the Cython core `DictFactImpl`.  Modelled from the spec:
the core (absent from src/) owns the dictionary `D`, the accumulators
`A`, `B`, `G` and the counters; `total_counter` is the global step count and
`processed` abstracts the cumulative in-place effect of all processed rows
on `D`, `A`, `B`, `G` (the spec's StatisticsAccumulator/DictionaryUpdater
state, whose numerics the wrapper never inspects). -/
structure ImplState where
  n_samples : ℕ
  n_threads : ℕ
  params : ImplParams
  total_counter : ℕ := 0
  processed : Batch := []
deriving DecidableEq

/-- Modelled from the spec: `DictFactImpl.partial_fit` (the Cython core,
absent from src/) "for each row in `batch` ... runs SubsetSampler →
CodeSolver → StatisticsAccumulator → DictionaryUpdater in sequence, then
increments `total_counter`": one increment per processed row, the numeric
state change abstracted as appending the rows to `processed`. -/
def DictFactImpl.partial_fit (s : ImplState) (X : Batch) : ImplState :=
  { s with
    total_counter := s.total_counter + X.length
    processed := s.processed ++ X }

/-- Modelled from the spec: `DictFactImpl.transform` (the Cython core,
absent from src/) "solves codes for a batch against the *current*
dictionary without mutating any statistics — a read-only inference path".
The numerical solve is abstracted as a deterministic function of the current
state and the batch; no state is returned because none is mutated. -/
def DictFactImpl.transform (s : ImplState) (X : Batch) : Batch × Batch :=
  (X, s.processed)

/-- The wrapper estimator: its constructor arguments, the optional Cython
core (`None` before initialization: `initialized` is `hasattr(self, '_impl')`,
line 76-77), and `allocations`, the number of times a `DictFactImpl` has
been constructed for this instance (an observation counter for the
lifecycle claims; the source allocates exactly once per `_initialize`
call, line 148). -/
structure Engine where
  config : Config
  impl : Option ImplState := none
  allocations : ℕ := 0
deriving DecidableEq

/-- A freshly constructed `DictFact(...)`: no `_impl` attribute yet. -/
def Engine.fresh (c : Config) : Engine := { config := c }

/-- `self.initialized` (lines 75-77). -/
def Engine.initialized (e : Engine) : Bool := e.impl.isSome

/-- The engine's `total_counter` (0 before initialization, where the Python
property would raise). -/
def Engine.total_counter (e : Engine) : ℕ :=
  match e.impl with
  | none => 0
  | some s => s.total_counter

/-- The sample count the core is sized with (lines 125-129): the declared
`n_samples` if given, else the first batch's row count. -/
def implNSamples (c : Config) (X : Batch) : ℕ :=
  match c.n_samples with
  | some n => n
  | none => X.length

/-- The freshly constructed core state (`DictFactImpl(D, n_samples,
n_threads=..., random_seed=..., **params)`, lines 148-151): zeroed counters,
nothing processed yet. -/
def initState (c : Config) (X : Batch) (p : ImplParams) : ImplState :=
  { n_samples := implNSamples c X, n_threads := c.n_threads, params := p }

/-- `DictFact._initialize` (lines 123-151): checks the `dict_init` shape
against `(n_components, n_features)`, resolves the impl params (which may
raise `KeyError`), and constructs the core with fresh zeroed counters.
The random dictionary draw and `enet_scale` projection act only on `D`'s
entries, which this embedding does not track. -/
def _initialize (c : Config) (X : Batch) : Except Err ImplState :=
  match c.dict_init with
  | some shape =>
    if shape ≠ (c.n_components, (X.headD []).length) then
      .error (.valueError "Initial dictionary and X shape mismatch")
    else
      match _get_impl_params c with
      | .error err => .error err
      | .ok p => .ok (initState c X p)
  | none =>
    match _get_impl_params c with
    | .error err => .error err
    | .ok p => .ok (initState c X p)

/-- Python slicing `X[:k]` with an `int` bound: a non-negative `k` keeps the
first `k` rows (clamped to the length), a negative `k` drops the last `|k|`
rows (clamped to the empty list). -/
def pyTake (xs : Batch) (k : ℤ) : Batch :=
  if 0 ≤ k then xs.take k.toNat else xs.take (xs.length - (-k).toNat)

/-- The budget truncation of `partial_fit` (lines 225-227):
`X = X[:max_n_iter - total_counter]` whenever `max_n_iter > 0`. -/
def truncBatch (c : Config) (s : ImplState) (X : Batch) : Batch :=
  if 0 < c.max_n_iter then
    pyTake X ((c.max_n_iter : ℤ) - (s.total_counter : ℤ))
  else X

/-- The effective `check_input` flag of `partial_fit` (lines 219-220):
forced to `True` when the engine is uninitialized or the argument is
`None`; otherwise the caller's Boolean. -/
def effCheck (e : Engine) (check_input : Option Bool) : Bool :=
  match e.impl, check_input with
  | some _, some b => b
  | _, _ => true

/-- `DictFact.partial_fit` (lines 216-229): optional input validation,
one-time initialization, budget truncation, then one core `partial_fit`
call. -/
def DictFact.partial_fit (e : Engine) (X : Batch) (check_input : Option Bool) :
    Except Err Engine :=
  match (if effCheck e check_input then check_array X else .ok X) with
  | .error err => .error err
  | .ok X =>
    match e.impl with
    | some s =>
      .ok { e with impl := some (DictFactImpl.partial_fit s (truncBatch e.config s X)) }
    | none =>
      match _initialize e.config X with
      | .error err => .error err
      | .ok s =>
        .ok { e with
              impl := some (DictFactImpl.partial_fit s (truncBatch e.config s X))
              allocations := e.allocations + 1 }

/-- A `partial_fit` call as a state transition: a raised exception leaves
the engine as it was. -/
def pfStep (e : Engine) (c : Batch × Option Bool) : Engine :=
  match DictFact.partial_fit e c.1 c.2 with
  | .ok e1 => e1
  | .error _ => e

/-- The `while self._impl.total_counter < self.max_n_iter` loop of `fit`
(lines 244-246), with explicit fuel: on a non-empty batch every iteration
raises `total_counter` by at least one, so `max_n_iter` steps of fuel make
the model agree with the unbounded source loop (which diverges only on an
input `check_array` already rejects). -/
def fitLoop (X : Batch) : ℕ → Engine → Engine
  | 0, e => e
  | fuel + 1, e =>
    if e.total_counter < e.config.max_n_iter then
      fitLoop X fuel (pfStep e (X, some false))
    else e

/-- The `for i in range(self.n_epochs)` loop of `fit` (lines 248-250). -/
def epochLoop (X : Batch) : ℕ → Engine → Engine
  | 0, e => e
  | n + 1, e => epochLoop X n (pfStep e (X, some false))

/-- `DictFact.fit` (lines 231-251): validates `X`, unconditionally
(re-)initializes the core, then drives `partial_fit` with
`check_input=False` either until `total_counter` reaches `max_n_iter`
(when `max_n_iter > 0`) or for `n_epochs` passes. -/
def DictFact.fit (e : Engine) (X : Batch) : Except Err Engine :=
  match check_array X with
  | .error err => .error err
  | .ok X =>
    match _initialize e.config X with
    | .error err => .error err
    | .ok s =>
      if 0 < e.config.max_n_iter then
        .ok (fitLoop X e.config.max_n_iter
          { e with impl := some s, allocations := e.allocations + 1 })
      else
        .ok (epochLoop X e.config.n_epochs
          { e with impl := some s, allocations := e.allocations + 1 })

/-- `DictFact.transform` (lines 253-259): raises a bare `ValueError()` —
carrying no message — when the engine was never fitted, else validates `X`
and delegates to the read-only core transform.  The unchanged engine is
returned alongside the result to make the absence of mutation explicit. -/
def DictFact.transform (e : Engine) (X : Batch) :
    Except Err ((Batch × Batch) × Engine) :=
  match e.impl with
  | none => .error (.valueError "")
  | some s =>
    match check_array X with
    | .error err => .error err
    | .ok X => .ok (DictFactImpl.transform s X, e)

/-- A `set_params` delta: `some v` for each constructor argument the caller
passes, `none` for the ones left alone (`**params` of line 203). -/
structure ParamsDelta where
  n_components : Option ℕ := none
  alpha : Option ℚ := none
  l1_ratio : Option ℚ := none
  pen_l1_ratio : Option ℚ := none
  tol : Option ℚ := none
  learning_rate : Option ℚ := none
  batch_size : Option ℕ := none
  offset : Option ℚ := none
  sample_learning_rate : Option (Option ℚ) := none
  reduction : Option ℚ := none
  solver : Option String := none
  weights : Option String := none
  subset_sampling : Option String := none
  dict_reduction : Option DictReduction := none
  dict_init : Option (Option (ℕ × ℕ)) := none
  n_samples : Option (Option ℕ) := none
  max_n_iter : Option ℕ := none
  n_epochs : Option ℕ := none
  n_threads : Option ℕ := none
deriving DecidableEq

/-- `BaseEstimator.set_params`: each passed argument overwrites the stored
configuration value. -/
def applyDelta (c : Config) (p : ParamsDelta) : Config where
  n_components := p.n_components.getD c.n_components
  alpha := p.alpha.getD c.alpha
  l1_ratio := p.l1_ratio.getD c.l1_ratio
  pen_l1_ratio := p.pen_l1_ratio.getD c.pen_l1_ratio
  tol := p.tol.getD c.tol
  learning_rate := p.learning_rate.getD c.learning_rate
  batch_size := p.batch_size.getD c.batch_size
  offset := p.offset.getD c.offset
  sample_learning_rate := p.sample_learning_rate.getD c.sample_learning_rate
  reduction := p.reduction.getD c.reduction
  solver := p.solver.getD c.solver
  weights := p.weights.getD c.weights
  subset_sampling := p.subset_sampling.getD c.subset_sampling
  dict_reduction := p.dict_reduction.getD c.dict_reduction
  dict_init := p.dict_init.getD c.dict_init
  n_samples := p.n_samples.getD c.n_samples
  max_n_iter := p.max_n_iter.getD c.max_n_iter
  n_epochs := p.n_epochs.getD c.n_epochs
  n_threads := p.n_threads.getD c.n_threads

/-- `DictFact.set_params` (lines 203-214), returned as (raised exception if
any, state after the call): on an initialized engine a delta touching
`n_samples`/`n_threads` raises before anything is mutated; otherwise the
configuration is updated and — when initialized — pushed into the core via
`set_impl_params` (`_update_impl_params`, lines 153-154), whose
`_get_impl_params` call may itself raise `KeyError` after the wrapper
configuration has already been mutated, exactly as in the source. -/
def DictFact.set_params (e : Engine) (p : ParamsDelta) : Option Err × Engine :=
  match e.impl with
  | some s =>
    if p.n_samples.isSome then
      (some (.valueError "Cannot reset attribute n_samples afterinitialization"), e)
    else if p.n_threads.isSome then
      (some (.valueError "Cannot reset attribute n_threads afterinitialization"), e)
    else
      match _get_impl_params (applyDelta e.config p) with
      | .error err => (some err, { e with config := applyDelta e.config p })
      | .ok ip =>
        (none,
          { e with
            config := applyDelta e.config p
            impl := some { s with params := ip } })
  | none => (none, { e with config := applyDelta e.config p })

/-- Whether a call returned normally. -/
def exceptOk {α : Type} : Except Err α → Bool
  | .ok _ => true
  | .error _ => false

/-- A `fit` call as a state transition: a raised exception leaves the
engine as it was. -/
def fitRun (e : Engine) (X : Batch) : Engine :=
  match DictFact.fit e X with
  | .ok e1 => e1
  | .error _ => e

/-- The engine's accumulated processed-row log (empty before
initialization). -/
def Engine.processed (e : Engine) : Batch :=
  match e.impl with
  | none => []
  | some s => s.processed

/-- `DictFact.score` (lines 269-276), translated entrywise over exact
rationals: `code, scaled_D = self.transform(X)` (the read-only core
transform leaves `self.scaled_D` equal to the returned `scaled_D`, so both
spellings in the source denote the same matrix, here the argument
`scaled_D`).  `loss` is half the summed squared residual, `regul` the
elastic-net code penalty, and the result is their sum over the number of
rows of `X`. -/
def DictFact.score {n f k : ℕ} (alpha pen_l1_ratio : ℚ)
    (X : Matrix (Fin n) (Fin f) ℚ) (code : Matrix (Fin n) (Fin k) ℚ)
    (scaled_D : Matrix (Fin k) (Fin f) ℚ) : ℚ :=
  let loss : ℚ := (∑ i, ∑ j, ((X - code * scaled_D) i j) ^ 2) / 2
  let norm1_code : ℚ := ∑ i, ∑ j, |code i j|
  let norm2_code : ℚ := ∑ i, ∑ j, (code i j) ^ 2
  let regul : ℚ := alpha * (norm1_code * pen_l1_ratio
    + (1 - pen_l1_ratio) * norm2_code / 2)
  (loss + regul) / (n : ℚ)

/-- Squared Frobenius norm. -/
def frobNormSq {n f : ℕ} (M : Matrix (Fin n) (Fin f) ℚ) : ℚ :=
  ∑ i, ∑ j, (M i j) ^ 2

/-- Entrywise L1 norm. -/
def entryL1 {n f : ℕ} (M : Matrix (Fin n) (Fin f) ℚ) : ℚ :=
  ∑ i, ∑ j, |M i j|

/-- The score as the specification words it: half the squared Frobenius
norm of the reconstruction residual, plus `alpha` times the elastic-net
penalty of the code matrix, divided by the batch's row count. -/
def scoreSpec {n f k : ℕ} (alpha pen_l1_ratio : ℚ)
    (X : Matrix (Fin n) (Fin f) ℚ) (code : Matrix (Fin n) (Fin k) ℚ)
    (scaled_D : Matrix (Fin k) (Fin f) ℚ) : ℚ :=
  (1/2 * frobNormSq (X - code * scaled_D)
    + alpha * (pen_l1_ratio * entryL1 code
      + (1 - pen_l1_ratio) / 2 * frobNormSq code)) / (n : ℚ)

/-- The default configuration, `DictFact()`. -/
def cfg0 : Config := {}

/-- A one-row, one-feature, all-finite batch. -/
def X1 : Batch := [[some 1]]

/-- A freshly constructed engine with the default configuration. -/
def e0 : Engine := Engine.fresh cfg0

/-- The impl params the default configuration resolves to
(`sample_learning_rate` written as the unevaluated `2.5 - 2 * 1`). -/
def ip0 : ImplParams :=
  { alpha := 1, l1_ratio := 0, pen_l1_ratio := 0, tol := 1/1000,
    learning_rate := 1, sample_learning_rate := 5/2 - 2 * 1, offset := 0,
    batch_size := 1, solver := 2, weights := 1, subset_sampling := 1,
    dict_reduction := 0, reduction := 1 }

/-- The core state after one `partial_fit` on `X1` from the default
configuration. -/
def s1 : ImplState :=
  { n_samples := 1, n_threads := 1, params := ip0,
    total_counter := 1, processed := [[some 1]] }

/-- The engine after one `partial_fit` on `X1` from the default
configuration. -/
def e1 : Engine := pfStep e0 (X1, none)

/-- A configuration with an iteration budget of two. -/
def cfgB : Config := { max_n_iter := 2 }

/-- A one-row batch whose single entry is non-finite. -/
def Xbad : Batch := [[none]]

/-- The recognized `solver` strings. -/
def validSolvers : List String := ["masked", "gram", "average"]

/-- The `weights` strings the lookup table actually recognizes. -/
def validWeights : List String := ["sync", "async_freq", "async_prob"]

/-- The recognized `subset_sampling` strings. -/
def validSubsetSampling : List String := ["random", "cyclic"]

/-- A `set_params` delta changing only `alpha`. -/
def pAlpha : ParamsDelta := { alpha := some 2 }

/-- A `set_params` delta attempting to change `n_samples`. -/
def pNsamp : ParamsDelta := { n_samples := some (some 5) }

/-- `ip0` with `alpha` swapped to 2. -/
def ip2 : ImplParams := { ip0 with alpha := 2 }

/-! ### Lemmas about the embedded operations -/

lemma check_array_ok {X Y : Batch} (h : check_array X = .ok Y) :
    Y = X ∧ batchFinite X = true ∧ X ≠ [] := by
  unfold check_array at h
  split at h
  · cases h
  · split at h
    · cases h
    · cases h
      refine ⟨rfl, by simp_all, by simp_all [List.length_eq_zero]⟩

lemma get_impl_params_slr {c : Config} {p : ImplParams}
    (h : _get_impl_params c = .ok p) :
    p.sample_learning_rate = effectiveSampleLearningRate c := by
  unfold _get_impl_params at h
  split at h
  · cases h
  · split at h
    · cases h
    · split at h
      · cases h
      · cases h; rfl

lemma initialize_ok {c : Config} {X : Batch} {s : ImplState}
    (h : _initialize c X = .ok s) :
    _get_impl_params c = .ok s.params ∧ s.total_counter = 0 ∧ s.processed = [] := by
  unfold _initialize at h
  split at h
  · split at h
    · cases h
    · split at h
      · cases h
      · rename_i heq
        cases h
        exact ⟨heq, rfl, rfl⟩
  · split at h
    · cases h
    · rename_i heq
      cases h
      exact ⟨heq, rfl, rfl⟩

lemma set_params_accepted {e : Engine} {p : ParamsDelta} {e1 : Engine}
    (h : DictFact.set_params e p = (none, e1)) :
    e1.config = applyDelta e.config p ∧
    ∀ s, e.impl = some s → ∃ ip,
      _get_impl_params (applyDelta e.config p) = .ok ip ∧
      e1.impl = some { s with params := ip } := by
  unfold DictFact.set_params at h
  split at h
  · rename_i s heq
    split at h
    · exact absurd h (by simp)
    · split at h
      · exact absurd h (by simp)
      · split at h
        · exact absurd h (by simp)
        · rename_i ip hip
          cases h
          exact ⟨rfl, fun s2 hs2 => by
            rw [heq] at hs2
            cases hs2
            exact ⟨ip, hip, rfl⟩⟩
  · rename_i heq
    cases h
    exact ⟨rfl, fun s2 hs2 => by rw [heq] at hs2; cases hs2⟩

/-! ### The claims -/

/-- C10: whenever `sample_learning_rate` is `None` (its default), the
effective per-sample learning rate passed to the implementation is
`2.5 - 2 * learning_rate`: in `_get_impl_params` itself, at initialization
(`_initialize`), and on every subsequent parameter update
(`set_params` → `_update_impl_params`). -/
theorem sample_learning_rate_default :
    (∀ c : Config, c.sample_learning_rate = none → ∀ p : ImplParams,
      _get_impl_params c = .ok p →
      p.sample_learning_rate = 5/2 - 2 * c.learning_rate)
    ∧ (∀ (c : Config) (X : Batch) (s : ImplState), c.sample_learning_rate = none →
      _initialize c X = .ok s →
      s.params.sample_learning_rate = 5/2 - 2 * c.learning_rate)
    ∧ (∀ (e : Engine) (p : ParamsDelta) (e1 : Engine) (s1 : ImplState),
      DictFact.set_params e p = (none, e1) →
      e.impl.isSome = true → e1.impl = some s1 →
      e1.config.sample_learning_rate = none →
      s1.params.sample_learning_rate = 5/2 - 2 * e1.config.learning_rate) := by
  refine ⟨?_, ?_, ?_⟩
  · intro c hn p hp
    rw [get_impl_params_slr hp]
    unfold effectiveSampleLearningRate
    rw [hn]
  · intro c X s hn hi
    have h := (initialize_ok hi).1
    rw [get_impl_params_slr h]
    unfold effectiveSampleLearningRate
    rw [hn]
  · intro e p e1 s1 hsp hini hs1 hcn
    rcases he : e.impl with _ | s
    · rw [he] at hini; cases hini
    · obtain ⟨hcfg, himpl⟩ := set_params_accepted hsp
      obtain ⟨ip, hip, hmm⟩ := himpl s he
      rw [hs1] at hmm
      cases hmm
      rw [← hcfg] at hip
      have := get_impl_params_slr hip
      simp only [this]
      unfold effectiveSampleLearningRate
      rw [hcn]

/-- C10 witness: with the default configuration (`sample_learning_rate =
None`, `learning_rate = 1`) the resolved impl params carry
`2.5 - 2 * 1`. -/
theorem sample_learning_rate_default_w :
    cfg0.sample_learning_rate = none ∧
    ip0.sample_learning_rate = 5/2 - 2 * cfg0.learning_rate :=
  ⟨rfl, sample_learning_rate_default.1 cfg0 rfl ip0 rfl⟩

/-- C6 (amended): calling `transform` before the engine has ever been
fitted fails with a fatal input error — a `ValueError` — but the exception
raised at line 255 is a bare `ValueError()` whose message is empty, so it
does not identify the violated invariant. -/
theorem transform_before_fit_raises (e : Engine) (X : Batch)
    (h : e.impl = none) :
    DictFact.transform e X = .error (.valueError "") ∧
    (Err.message (.valueError "")).length = 0 := by
  unfold DictFact.transform
  rw [h]
  exact ⟨rfl, rfl⟩

/-- C6 counterexample: on a freshly constructed engine, `transform` raises
`ValueError()` with the empty string as its message — no description of the
violated invariant is surfaced, contradicting the claim's "descriptive
exception identifying which invariant was violated". -/
theorem transform_before_fit_bare_message :
    DictFact.transform e0 X1 = .error (.valueError "") ∧
    Err.message (.valueError "") = "" :=
  ⟨rfl, rfl⟩

/-- C6 witness: the amended statement at the concrete fresh engine. -/
theorem transform_before_fit_raises_w :
    DictFact.transform e0 X1 = .error (.valueError "") ∧
    (Err.message (.valueError "")).length = 0 :=
  transform_before_fit_raises e0 X1 rfl

/-- C9: a successful `transform` leaves the engine exactly as it was, and
calling `transform` again on the same batch with no intervening
`partial_fit` returns the same `(codes, scaled_dictionary)` pair. -/
theorem transform_no_mutation (e : Engine) (X : Batch)
    (r : Batch × Batch) (e1 : Engine)
    (h : DictFact.transform e X = .ok (r, e1)) :
    e1 = e ∧ DictFact.transform e1 X = .ok (r, e1) := by
  have he1 : e1 = e := by
    unfold DictFact.transform at h
    split at h
    · cases h
    · split at h
      · cases h
      · cases h; rfl
  subst he1
  exact ⟨rfl, h⟩

/-- C9 witness: on the fitted engine `e1`, two `transform` calls on `X1`
return the same codes and the engine is unchanged. -/
theorem transform_no_mutation_w :
    e1 = e1 ∧ DictFact.transform e1 X1 = .ok ((X1, [[some 1]]), e1) :=
  transform_no_mutation e1 X1 (X1, [[some 1]]) e1 rfl

lemma solverCode_isSome_iff (s : String) :
    (solverCode s).isSome = true ↔ s ∈ validSolvers := by
  unfold solverCode validSolvers
  split <;> simp_all

lemma weightsCode_isSome_iff (s : String) :
    (weightsCode s).isSome = true ↔ s ∈ validWeights := by
  unfold weightsCode validWeights
  split <;> simp_all

lemma subsetSamplingCode_isSome_iff (s : String) :
    (subsetSamplingCode s).isSome = true ↔ s ∈ validSubsetSampling := by
  unfold subsetSamplingCode validSubsetSampling
  split <;> simp_all

lemma get_impl_params_some (c : Config)
    (h1 : c.solver ∈ validSolvers) (h2 : c.weights ∈ validWeights)
    (h3 : c.subset_sampling ∈ validSubsetSampling) :
    ∃ p, _get_impl_params c = .ok p := by
  have hs := (solverCode_isSome_iff c.solver).2 h1
  have hw := (weightsCode_isSome_iff c.weights).2 h2
  have hss := (subsetSamplingCode_isSome_iff c.subset_sampling).2 h3
  rcases hs' : solverCode c.solver with _ | sv
  · rw [hs'] at hs; cases hs
  rcases hw' : weightsCode c.weights with _ | wt
  · rw [hw'] at hw; cases hw
  rcases hss' : subsetSamplingCode c.subset_sampling with _ | ss
  · rw [hss'] at hss; cases hss
  refine ⟨{ alpha := c.alpha
            l1_ratio := c.l1_ratio
            pen_l1_ratio := c.pen_l1_ratio
            tol := c.tol
            learning_rate := c.learning_rate
            sample_learning_rate := effectiveSampleLearningRate c
            offset := c.offset
            batch_size := c.batch_size
            solver := sv
            weights := wt
            subset_sampling := ss
            dict_reduction := dictReductionValue c
            reduction := c.reduction }, ?_⟩
  unfold _get_impl_params
  rw [hs', hw', hss']

lemma get_impl_params_error (c : Config)
    (h : ¬ (c.solver ∈ validSolvers ∧ c.weights ∈ validWeights ∧
      c.subset_sampling ∈ validSubsetSampling)) :
    ∃ key, _get_impl_params c = .error (.keyError key) := by
  unfold _get_impl_params
  rcases hs : solverCode c.solver with _ | sv
  · exact ⟨c.solver, rfl⟩
  rcases hw : weightsCode c.weights with _ | wt
  · exact ⟨c.weights, rfl⟩
  rcases hss : subsetSamplingCode c.subset_sampling with _ | ss
  · exact ⟨c.subset_sampling, rfl⟩
  exfalso
  apply h
  refine ⟨?_, ?_, ?_⟩
  · exact (solverCode_isSome_iff _).1 (by rw [hs]; rfl)
  · exact (weightsCode_isSome_iff _).1 (by rw [hw]; rfl)
  · exact (subsetSamplingCode_isSome_iff _).1 (by rw [hss]; rfl)

lemma partial_fit_fresh_ok {c : Config} {X : Batch} {s : ImplState}
    (hX : check_array X = .ok X) (hi : _initialize c X = .ok s) :
    DictFact.partial_fit (Engine.fresh c) X none =
      .ok { config := c
            impl := some (DictFactImpl.partial_fit s (truncBatch c s X))
            allocations := 1 } := by
  unfold DictFact.partial_fit
  rw [hX]
  simp only [ite_self]
  show (match _initialize c X with
    | .error err => Except.error err
    | .ok s => _) = _
  rw [hi]
  rfl

lemma partial_fit_fresh_error {c : Config} {X : Batch} {err : Err}
    (hX : check_array X = .ok X) (hi : _initialize c X = .error err) :
    DictFact.partial_fit (Engine.fresh c) X none = .error err := by
  unfold DictFact.partial_fit
  rw [hX]
  simp only [ite_self]
  show (match _initialize c X with
    | .error err => Except.error err
    | .ok s => _) = _
  rw [hi]

/-- C4 (amended): construction recognizes exactly `solver` ∈ {masked, gram,
average}, `weights` ∈ {sync, async_freq, async_prob} and `subset_sampling`
∈ {random, cyclic} — for `weights` the accepted spellings are those three,
not `async`, the constructor comment notwithstanding.  For every value in
these sets the first `partial_fit` on a fresh engine (valid finite input,
no `dict_init`) initializes the engine without error, and for any
unrecognized value a `KeyError` is raised during initialization and the
engine is left uninitialized. -/
theorem enum_recognition (c : Config) (X : Batch)
    (hX : check_array X = .ok X) (hd : c.dict_init = none) :
    ((c.solver ∈ validSolvers ∧ c.weights ∈ validWeights ∧
        c.subset_sampling ∈ validSubsetSampling) →
      DictFact.partial_fit (Engine.fresh c) X none =
        .ok (pfStep (Engine.fresh c) (X, none)) ∧
      (pfStep (Engine.fresh c) (X, none)).initialized = true)
    ∧ ((c.solver ∉ validSolvers ∨ c.weights ∉ validWeights ∨
        c.subset_sampling ∉ validSubsetSampling) →
      (∃ key, DictFact.partial_fit (Engine.fresh c) X none =
        .error (.keyError key)) ∧
      pfStep (Engine.fresh c) (X, none) = Engine.fresh c) := by
  constructor
  · rintro ⟨h1, h2, h3⟩
    obtain ⟨p, hp⟩ := get_impl_params_some c h1 h2 h3
    have hi : _initialize c X = .ok (initState c X p) := by
      unfold _initialize
      rw [hd, hp]
    have hpf := partial_fit_fresh_ok hX hi
    have hstep : pfStep (Engine.fresh c) (X, none) =
        { config := c
          impl := some (DictFactImpl.partial_fit (initState c X p)
            (truncBatch c (initState c X p) X))
          allocations := 1 } := by
      unfold pfStep
      rw [hpf]
    rw [hstep]
    exact ⟨hpf, rfl⟩
  · intro h
    have h' : ¬ (c.solver ∈ validSolvers ∧ c.weights ∈ validWeights ∧
        c.subset_sampling ∈ validSubsetSampling) := by tauto
    obtain ⟨key, hk⟩ := get_impl_params_error c h'
    have hi : _initialize c X = .error (.keyError key) := by
      unfold _initialize
      rw [hd, hk]
    have hpf := partial_fit_fresh_error hX hi
    refine ⟨⟨key, hpf⟩, ?_⟩
    unfold pfStep
    rw [hpf]

/-- C4 counterexample: with `weights = "async"` — a value the claim says is
recognized — the first `partial_fit` raises `KeyError("async")` instead of
initializing (the lookup table accepts `sync`, `async_freq`, `async_prob`
only). -/
theorem enum_async_keyerror :
    DictFact.partial_fit (Engine.fresh { weights := "async" }) X1 none =
      .error (.keyError "async") ∧
    (pfStep (Engine.fresh { weights := "async" }) (X1, none)).initialized = false :=
  ⟨rfl, rfl⟩

/-- C4 witness: the default configuration (`gram`/`sync`/`random`) is in
the recognized sets and its first `partial_fit` initializes the engine;
`async_freq` likewise initializes without error. -/
theorem enum_recognition_w :
    (DictFact.partial_fit (Engine.fresh cfg0) X1 none =
        .ok (pfStep (Engine.fresh cfg0) (X1, none)) ∧
      (pfStep (Engine.fresh cfg0) (X1, none)).initialized = true) ∧
    (DictFact.partial_fit (Engine.fresh { weights := "async_freq" }) X1 none =
        .ok (pfStep (Engine.fresh { weights := "async_freq" }) (X1, none)) ∧
      (pfStep (Engine.fresh { weights := "async_freq" }) (X1, none)).initialized
        = true) :=
  ⟨(enum_recognition cfg0 X1 rfl rfl).1 (by decide),
   (enum_recognition { weights := "async_freq" } X1 rfl rfl).1 (by decide)⟩

/-- C5: on an initialized engine, `set_params` rejects any attempt to
change `n_samples` or `n_threads` with a `ValueError` raised before any
mutation — the engine is returned exactly as it was — while a delta
touching neither (and resolving to recognized impl params) is accepted:
the stored configuration and the core's parameters are updated, which the
next `partial_fit` call reads. -/
theorem set_params_guard (e : Engine) (p : ParamsDelta) (s : ImplState)
    (hs : e.impl = some s) :
    (p.n_samples.isSome = true →
      DictFact.set_params e p =
        (some (.valueError "Cannot reset attribute n_samples afterinitialization"), e))
    ∧ (p.n_samples = none → p.n_threads.isSome = true →
      DictFact.set_params e p =
        (some (.valueError "Cannot reset attribute n_threads afterinitialization"), e))
    ∧ (∀ ip, p.n_samples = none → p.n_threads = none →
      _get_impl_params (applyDelta e.config p) = .ok ip →
      DictFact.set_params e p =
        (none, { e with
                 config := applyDelta e.config p
                 impl := some { s with params := ip } })) := by
  refine ⟨?_, ?_, ?_⟩
  · intro h1
    unfold DictFact.set_params
    rw [hs]
    simp [h1]
  · intro h1 h2
    unfold DictFact.set_params
    rw [hs]
    simp [h1, h2]
  · intro ip h1 h2 hip
    unfold DictFact.set_params
    rw [hs]
    simp [h1, h2, hip]

/-- C5 witness: on the fitted engine `e1`, changing `n_samples` is rejected
with the engine unchanged, and changing `alpha` is accepted and lands in
both the stored configuration and the core's parameters. -/
theorem set_params_guard_w :
    DictFact.set_params e1 pNsamp =
      (some (.valueError "Cannot reset attribute n_samples afterinitialization"), e1) ∧
    DictFact.set_params e1 pAlpha =
      (none, { e1 with
               config := applyDelta e1.config pAlpha
               impl := some { s1 with params := ip2 } }) :=
  ⟨(set_params_guard e1 pNsamp s1 rfl).1 rfl,
   (set_params_guard e1 pAlpha s1 rfl).2.2 ip2 rfl rfl rfl⟩

lemma total_counter_some {e : Engine} {s : ImplState} (h : e.impl = some s) :
    e.total_counter = s.total_counter := by
  unfold Engine.total_counter
  rw [h]

lemma partial_fit_ok_shape {e : Engine} {X : Batch} {ci : Option Bool} {e2 : Engine}
    (h : DictFact.partial_fit e X ci = .ok e2) :
    e2.config = e.config ∧
    ((∃ s, e.impl = some s ∧
        e2 = { e with impl := some (DictFactImpl.partial_fit s (truncBatch e.config s X)) })
     ∨ (∃ s0, e.impl = none ∧ _initialize e.config X = .ok s0 ∧
        e2 = { e with
               impl := some (DictFactImpl.partial_fit s0 (truncBatch e.config s0 X))
               allocations := e.allocations + 1 })) := by
  unfold DictFact.partial_fit at h
  split at h
  · cases h
  · rename_i Y hY
    have hYX : Y = X := by
      by_cases hck : effCheck e ci = true
      · rw [if_pos hck] at hY
        exact (check_array_ok hY).1
      · rw [if_neg hck] at hY
        injection hY with h2
        exact h2.symm
    subst hYX
    split at h
    · rename_i s hs
      cases h
      exact ⟨rfl, .inl ⟨s, hs, rfl⟩⟩
    · rename_i hnone
      split at h
      · cases h
      · rename_i s0 hi
        cases h
        exact ⟨rfl, .inr ⟨s0, hnone, hi, rfl⟩⟩

lemma pfStep_config (e : Engine) (ch : Batch × Option Bool) :
    (pfStep e ch).config = e.config := by
  unfold pfStep
  rcases hr : DictFact.partial_fit e ch.1 ch.2 with err | e2
  · rfl
  · exact (partial_fit_ok_shape hr).1

lemma truncBatch_zero {c : Config} {s : ImplState} {X : Batch}
    (h : c.max_n_iter = 0) : truncBatch c s X = X := by
  unfold truncBatch
  rw [h]
  rfl

lemma truncBatch_take {c : Config} {s : ImplState} {X : Batch}
    (hpos : 0 < c.max_n_iter) (hle : s.total_counter ≤ c.max_n_iter) :
    truncBatch c s X = X.take (c.max_n_iter - s.total_counter) := by
  unfold truncBatch pyTake
  rw [if_pos hpos]
  have h0 : (0:ℤ) ≤ (c.max_n_iter : ℤ) - (s.total_counter : ℤ) := by omega
  rw [if_pos h0]
  congr 1
  omega

lemma truncBatch_len {c : Config} {s : ImplState} {X : Batch}
    (hpos : 0 < c.max_n_iter) (hle : s.total_counter ≤ c.max_n_iter) :
    (truncBatch c s X).length = min (c.max_n_iter - s.total_counter) X.length := by
  rw [truncBatch_take hpos hle, List.length_take]

lemma partial_fit_initialized {e : Engine} {s : ImplState} {X : Batch} {ci : Option Bool}
    (hs : e.impl = some s)
    (hck : (if effCheck e ci then check_array X else .ok X) = .ok X) :
    DictFact.partial_fit e X ci =
      .ok { e with impl := some (DictFactImpl.partial_fit s (truncBatch e.config s X)) } := by
  unfold DictFact.partial_fit
  rw [hck]
  show (match e.impl with
    | some s =>
      Except.ok { e with impl := some (DictFactImpl.partial_fit s (truncBatch e.config s X)) }
    | none => _) = _
  rw [hs]

lemma pfStep_budget {m : ℕ} (e : Engine) (ch : Batch × Option Bool)
    (hcfg : e.config.max_n_iter = m) (hpos : 0 < m) (hle : e.total_counter ≤ m) :
    (pfStep e ch).config.max_n_iter = m ∧ (pfStep e ch).total_counter ≤ m := by
  refine ⟨by rw [pfStep_config]; exact hcfg, ?_⟩
  unfold pfStep
  rcases hr : DictFact.partial_fit e ch.1 ch.2 with err | e2
  · exact hle
  · obtain ⟨hc2, hsh⟩ := partial_fit_ok_shape hr
    rcases hsh with ⟨s, hs, rfl⟩ | ⟨s0, hnone, hi, rfl⟩
    · have hst : e.total_counter = s.total_counter := total_counter_some hs
      have hlen := truncBatch_len (c := e.config) (s := s) (X := ch.1)
        (by omega) (by omega)
      have hshow : Engine.total_counter
          { e with impl := some (DictFactImpl.partial_fit s (truncBatch e.config s ch.1)) } =
          s.total_counter + (truncBatch e.config s ch.1).length := rfl
      rw [hshow, hlen]
      omega
    · have h00 : s0.total_counter = 0 := (initialize_ok hi).2.1
      have hlen := truncBatch_len (c := e.config) (s := s0) (X := ch.1)
        (by omega) (by omega)
      have hshow : Engine.total_counter
          { e with
            impl := some (DictFactImpl.partial_fit s0 (truncBatch e.config s0 ch.1))
            allocations := e.allocations + 1 } =
          s0.total_counter + (truncBatch e.config s0 ch.1).length := rfl
      rw [hshow, hlen]
      omega

lemma implPartialFit_nil (s : ImplState) : DictFactImpl.partial_fit s [] = s := by
  unfold DictFactImpl.partial_fit
  simp

/-- C1: with `max_n_iter = m > 0`, `total_counter` never exceeds `m` over
any sequence of further `partial_fit` calls; a call arriving with
`total_counter = m` processes no rows and leaves the engine unchanged; a
call that would cross `m` is truncated to its first `m - total_counter`
rows instead of erroring. -/
theorem budget_never_exceeded (c : Config) (m : ℕ) (hm : c.max_n_iter = m)
    (hpos : 0 < m) (calls : List (Batch × Option Bool)) :
    Engine.total_counter (List.foldl pfStep (Engine.fresh c) calls) ≤ m
    ∧ (∀ (e : Engine) (s : ImplState) (X : Batch) (ci : Option Bool),
        e.config = c → e.impl = some s → s.total_counter ≤ m →
        check_array X = .ok X →
        DictFact.partial_fit e X ci =
          .ok { e with impl := some (DictFactImpl.partial_fit s (X.take (m - s.total_counter))) })
    ∧ (∀ (e : Engine) (s : ImplState) (X : Batch) (ci : Option Bool),
        e.config = c → e.impl = some s → s.total_counter = m →
        check_array X = .ok X →
        DictFact.partial_fit e X ci = .ok e) := by
  have trunc : ∀ (e : Engine) (s : ImplState) (X : Batch) (ci : Option Bool),
      e.config = c → e.impl = some s → s.total_counter ≤ m →
      check_array X = .ok X →
      DictFact.partial_fit e X ci =
        .ok { e with impl := some (DictFactImpl.partial_fit s (X.take (m - s.total_counter))) } := by
    intro e s X ci hcfg hs hle hX
    have hck : (if effCheck e ci then check_array X else .ok X) = .ok X := by
      by_cases hb : effCheck e ci = true
      · rw [if_pos hb, hX]
      · rw [if_neg hb]
    have h := partial_fit_initialized hs hck
    rw [h, truncBatch_take (by rw [hcfg, hm]; exact hpos) (by rw [hcfg, hm]; exact hle)]
    rw [hcfg, hm]
  refine ⟨?_, trunc, ?_⟩
  · have inv : ∀ (cs : List (Batch × Option Bool)) (e : Engine),
        e.config.max_n_iter = m → e.total_counter ≤ m →
        Engine.total_counter (List.foldl pfStep e cs) ≤ m := by
      intro cs
      induction cs with
      | nil => intro e h1 h2; simpa using h2
      | cons hd tl ih =>
        intro e h1 h2
        obtain ⟨h1', h2'⟩ := pfStep_budget e hd h1 hpos h2
        exact ih _ h1' h2'
    exact inv calls (Engine.fresh c) (by exact hm) (by simp [Engine.fresh, Engine.total_counter])
  · intro e s X ci hcfg hs hfull hX
    have h := trunc e s X ci hcfg hs (le_of_eq hfull) hX
    rw [hfull] at h
    simp only [Nat.sub_self, List.take_zero, implPartialFit_nil] at h
    rw [h, ← hs]

/-- C1 witness: a budget of 2 is respected across three one-row
`partial_fit` calls. -/
theorem budget_never_exceeded_w :
    0 < 2 ∧
    Engine.total_counter (List.foldl pfStep (Engine.fresh cfgB)
      [(X1, none), (X1, none), (X1, none)]) ≤ 2 :=
  ⟨by decide,
   (budget_never_exceeded cfgB 2 rfl (by decide) [(X1, none), (X1, none), (X1, none)]).1⟩

lemma pfStep_nochk {e : Engine} {s : ImplState} (X : Batch) (hs : e.impl = some s) :
    pfStep e (X, some false) =
      { e with impl := some (DictFactImpl.partial_fit s (truncBatch e.config s X)) } := by
  have heff : effCheck e (some false) = false := by
    unfold effCheck
    rw [hs]
  have hck : (if effCheck e (some false) then check_array X else .ok X) = .ok X := by
    rw [if_neg (by simp [heff])]
  have h := partial_fit_initialized hs hck
  unfold pfStep
  rw [h]

lemma epochLoop_spec (X : Batch) :
    ∀ (n : ℕ) (e : Engine) (s : ImplState), e.impl = some s →
      e.config.max_n_iter = 0 →
      epochLoop X n e =
        { e with impl := some { s with total_counter := s.total_counter + n * X.length, processed := s.processed ++ (List.replicate n X).join } } := by
  intro n
  induction n with
  | zero =>
    intro e s hs h0
    have h1 : ({ s with total_counter := s.total_counter + 0 * X.length, processed := s.processed ++ (List.replicate 0 X).join } : ImplState) = s := by
      simp
    rw [epochLoop, h1, ← hs]
  | succ n ih =>
    intro e s hs h0
    have harith : (DictFactImpl.partial_fit s X).total_counter + n * X.length
        = s.total_counter + (n + 1) * X.length := by
      show s.total_counter + X.length + n * X.length = s.total_counter + (n + 1) * X.length
      ring
    have hlist : (DictFactImpl.partial_fit s X).processed ++ (List.replicate n X).join
        = s.processed ++ (List.replicate (n + 1) X).join := by
      show (s.processed ++ X) ++ (List.replicate n X).join
        = s.processed ++ (List.replicate (n + 1) X).join
      simp [List.replicate_succ, List.append_assoc]
    rw [epochLoop, pfStep_nochk X hs, truncBatch_zero h0]
    rw [ih { e with impl := some (DictFactImpl.partial_fit s X) }
        (DictFactImpl.partial_fit s X) rfl (by exact h0)]
    rw [harith, hlist]
    rfl

lemma fitLoop_reaches {X : Batch} (hX : X ≠ []) :
    ∀ (fuel : ℕ) (e : Engine) (s : ImplState), e.impl = some s →
      0 < e.config.max_n_iter →
      s.total_counter ≤ e.config.max_n_iter →
      e.config.max_n_iter - s.total_counter ≤ fuel →
      Engine.total_counter (fitLoop X fuel e) = e.config.max_n_iter := by
  intro fuel
  induction fuel with
  | zero =>
    intro e s hs hpos hle hfuel
    have heq : s.total_counter = e.config.max_n_iter := by omega
    rw [fitLoop, total_counter_some hs, heq]
  | succ fuel ih =>
    intro e s hs hpos hle hfuel
    have htot : e.total_counter = s.total_counter := total_counter_some hs
    have hXlen : 0 < X.length := List.length_pos.2 hX
    have hlen := truncBatch_len (c := e.config) (s := s) (X := X) hpos hle
    rw [fitLoop]
    by_cases hlt : e.total_counter < e.config.max_n_iter
    · rw [if_pos hlt, pfStep_nochk X hs]
      have h2 := ih { e with impl := some (DictFactImpl.partial_fit s (truncBatch e.config s X)) }
        (DictFactImpl.partial_fit s (truncBatch e.config s X)) rfl hpos
        (by
          show s.total_counter + (truncBatch e.config s X).length ≤ e.config.max_n_iter
          omega)
        (by
          show e.config.max_n_iter - (s.total_counter + (truncBatch e.config s X).length) ≤ fuel
          omega)
      exact h2
    · rw [if_neg hlt, total_counter_some hs]
      omega

lemma fit_unfold {c : Config} {X : Batch} {s : ImplState}
    (hX : check_array X = .ok X) (hi : _initialize c X = .ok s) :
    DictFact.fit (Engine.fresh c) X =
      if 0 < c.max_n_iter then
        .ok (fitLoop X c.max_n_iter { config := c, impl := some s, allocations := 1 })
      else
        .ok (epochLoop X c.n_epochs { config := c, impl := some s, allocations := 1 }) := by
  unfold DictFact.fit
  rw [show (Engine.fresh c).config = c from rfl, hX]
  show (match _initialize c X with
    | .error err => Except.error err
    | .ok s => _) = _
  rw [hi]
  rfl

/-- C2: `fit(X)` drives `partial_fit` until the governing bound: with
`max_n_iter = 0` it performs exactly `n_epochs` full passes over `X`
(`total_counter` ends at `n_epochs * |X|` and the processed-row log is
`n_epochs` copies of `X`), and with `max_n_iter > 0` it stops exactly when
`total_counter` reaches `max_n_iter`, regardless of `n_epochs`. -/
theorem fit_epochs_and_budget (c : Config) (X : Batch) (s : ImplState)
    (hX : check_array X = .ok X) (hinit : _initialize c X = .ok s) :
    (c.max_n_iter = 0 →
      DictFact.fit (Engine.fresh c) X = .ok (fitRun (Engine.fresh c) X) ∧
      Engine.total_counter (fitRun (Engine.fresh c) X) = c.n_epochs * X.length ∧
      Engine.processed (fitRun (Engine.fresh c) X) = (List.replicate c.n_epochs X).join)
    ∧ (0 < c.max_n_iter →
      DictFact.fit (Engine.fresh c) X = .ok (fitRun (Engine.fresh c) X) ∧
      Engine.total_counter (fitRun (Engine.fresh c) X) = c.max_n_iter) := by
  have h0 := initialize_ok hinit
  constructor
  · intro hm
    have hfit : DictFact.fit (Engine.fresh c) X =
        .ok (epochLoop X c.n_epochs { config := c, impl := some s, allocations := 1 }) := by
      rw [fit_unfold hX hinit, if_neg (by omega)]
    have hrun : fitRun (Engine.fresh c) X =
        epochLoop X c.n_epochs { config := c, impl := some s, allocations := 1 } := by
      unfold fitRun
      rw [hfit]
    have hspec := epochLoop_spec X c.n_epochs
      { config := c, impl := some s, allocations := 1 } s rfl (by exact hm)
    refine ⟨by rw [hfit, hrun], ?_, ?_⟩
    · rw [hrun, hspec]
      show s.total_counter + c.n_epochs * X.length = c.n_epochs * X.length
      rw [h0.2.1]
      omega
    · rw [hrun, hspec]
      show s.processed ++ (List.replicate c.n_epochs X).join = (List.replicate c.n_epochs X).join
      rw [h0.2.2]
      simp
  · intro hm
    have hfit : DictFact.fit (Engine.fresh c) X =
        .ok (fitLoop X c.max_n_iter { config := c, impl := some s, allocations := 1 }) := by
      rw [fit_unfold hX hinit, if_pos hm]
    have hrun : fitRun (Engine.fresh c) X =
        fitLoop X c.max_n_iter { config := c, impl := some s, allocations := 1 } := by
      unfold fitRun
      rw [hfit]
    have hXne : X ≠ [] := (check_array_ok hX).2.2
    refine ⟨by rw [hfit, hrun], ?_⟩
    rw [hrun]
    exact fitLoop_reaches hXne c.max_n_iter
      { config := c, impl := some s, allocations := 1 } s rfl (by exact hm)
      (by
        show s.total_counter ≤ c.max_n_iter
        rw [h0.2.1]
        omega)
      (by
        show c.max_n_iter - s.total_counter ≤ c.max_n_iter
        exact Nat.sub_le _ _)

/-- C2 witness: with the default configuration (`max_n_iter = 0`,
`n_epochs = 1`) `fit` on a one-row batch performs one pass
(`total_counter = 1`), and with `max_n_iter = 2` it stops exactly at
`total_counter = 2`. -/
theorem fit_epochs_and_budget_w :
    Engine.total_counter (fitRun (Engine.fresh cfg0) X1) = cfg0.n_epochs * X1.length ∧
    Engine.total_counter (fitRun (Engine.fresh cfgB) X1) = cfgB.max_n_iter :=
  ⟨((fit_epochs_and_budget cfg0 X1 { n_samples := 1, n_threads := 1, params := ip0 }
      rfl rfl).1 rfl).2.1,
   ((fit_epochs_and_budget cfgB X1 { n_samples := 1, n_threads := 1, params := ip0 }
      rfl rfl).2 (by decide)).2⟩

lemma pfStep_alloc_init (e : Engine) (ch : Batch × Option Bool)
    (h : e.initialized = true) :
    (pfStep e ch).allocations = e.allocations ∧ (pfStep e ch).initialized = true := by
  unfold pfStep
  rcases hr : DictFact.partial_fit e ch.1 ch.2 with err | e2
  · exact ⟨rfl, h⟩
  · obtain ⟨-, hsh⟩ := partial_fit_ok_shape hr
    rcases hsh with ⟨s, hs, rfl⟩ | ⟨s0, hnone, -, rfl⟩
    · exact ⟨rfl, rfl⟩
    · unfold Engine.initialized at h
      rw [hnone] at h
      cases h

lemma epochLoop_alloc (X : Batch) :
    ∀ (n : ℕ) (e : Engine), e.initialized = true →
      (epochLoop X n e).allocations = e.allocations ∧
      (epochLoop X n e).initialized = true := by
  intro n
  induction n with
  | zero => intro e h; exact ⟨rfl, h⟩
  | succ n ih =>
    intro e h
    obtain ⟨h1, h2⟩ := pfStep_alloc_init e (X, some false) h
    obtain ⟨h3, h4⟩ := ih (pfStep e (X, some false)) h2
    rw [epochLoop]
    exact ⟨by rw [h3, h1], h4⟩

lemma fitLoop_alloc (X : Batch) :
    ∀ (fuel : ℕ) (e : Engine), e.initialized = true →
      (fitLoop X fuel e).allocations = e.allocations ∧
      (fitLoop X fuel e).initialized = true := by
  intro fuel
  induction fuel with
  | zero => intro e h; exact ⟨rfl, h⟩
  | succ fuel ih =>
    intro e h
    rw [fitLoop]
    by_cases hlt : e.total_counter < e.config.max_n_iter
    · rw [if_pos hlt]
      obtain ⟨h1, h2⟩ := pfStep_alloc_init e (X, some false) h
      obtain ⟨h3, h4⟩ := ih (pfStep e (X, some false)) h2
      exact ⟨by rw [h3, h1], h4⟩
    · rw [if_neg hlt]
      exact ⟨rfl, h⟩

/-- C3 (amended): the core — the dictionary `D` and all accumulators — is
created at the first `fit`/`partial_fit` call; `partial_fit` on an
initialized engine never re-creates it, and the UNINITIALIZED → READY
transition is one-way (no operation ever removes the core).  However,
every `fit` call — not just the first — re-initializes, constructing a
fresh core even on an already-initialized engine. -/
theorem lifecycle_one_way :
    (∀ (e : Engine) (X : Batch) (ci : Option Bool) (e2 : Engine),
      e.initialized = true → DictFact.partial_fit e X ci = .ok e2 →
      e2.allocations = e.allocations ∧ e2.initialized = true)
    ∧ (∀ (e : Engine) (X : Batch) (ci : Option Bool) (e2 : Engine),
      e.initialized = false → DictFact.partial_fit e X ci = .ok e2 →
      e2.allocations = e.allocations + 1 ∧ e2.initialized = true)
    ∧ (∀ (e : Engine) (X : Batch) (e2 : Engine),
      DictFact.fit e X = .ok e2 →
      e2.allocations = e.allocations + 1 ∧ e2.initialized = true)
    ∧ (∀ (e : Engine) (p : ParamsDelta),
      e.initialized = true → (DictFact.set_params e p).2.initialized = true) := by
  refine ⟨?_, ?_, ?_, ?_⟩
  · intro e X ci e2 h hpf
    obtain ⟨-, hsh⟩ := partial_fit_ok_shape hpf
    rcases hsh with ⟨s, hs, rfl⟩ | ⟨s0, hnone, -, rfl⟩
    · exact ⟨rfl, rfl⟩
    · unfold Engine.initialized at h
      rw [hnone] at h
      cases h
  · intro e X ci e2 h hpf
    obtain ⟨-, hsh⟩ := partial_fit_ok_shape hpf
    rcases hsh with ⟨s, hs, rfl⟩ | ⟨s0, hnone, -, rfl⟩
    · unfold Engine.initialized at h
      rw [hs] at h
      cases h
    · exact ⟨rfl, rfl⟩
  · intro e X e2 hfit
    unfold DictFact.fit at hfit
    split at hfit
    · cases hfit
    · rename_i Y hY
      split at hfit
      · cases hfit
      · rename_i s hi
        split at hfit
        · injection hfit with h2
          subst h2
          obtain ⟨h3, h4⟩ := fitLoop_alloc Y _
            { config := e.config, impl := some s, allocations := e.allocations + 1 } rfl
          exact ⟨by rw [h3], h4⟩
        · injection hfit with h2
          subst h2
          obtain ⟨h3, h4⟩ := epochLoop_alloc Y _
            { config := e.config, impl := some s, allocations := e.allocations + 1 } rfl
          exact ⟨by rw [h3], h4⟩
  · intro e p h
    unfold DictFact.set_params
    split
    · rename_i s hs
      split
      · exact h
      · split
        · exact h
        · split
          · exact h
          · rfl
    · exact h

/-- C3 counterexample: two successive `fit` calls on the same instance
construct the core twice — the second `fit` re-creates `D` and the
accumulators (`fit` calls `_initialize` unconditionally at line 241),
contradicting "created exactly once, at the first call to fit or
partial_fit ... no later fit call re-creates D or the accumulators". -/
theorem fit_reallocates_cex :
    (fitRun e0 X1).allocations = 1 ∧
    (fitRun (fitRun e0 X1) X1).allocations = 2 ∧
    (fitRun (fitRun e0 X1) X1).initialized = true :=
  ⟨rfl, rfl, rfl⟩

/-- C3 witness: a `partial_fit` call on the already-initialized engine `e1`
re-creates nothing and keeps the engine initialized. -/
theorem lifecycle_one_way_w :
    (pfStep e1 (X1, none)).allocations = e1.allocations ∧
    (pfStep e1 (X1, none)).initialized = true :=
  lifecycle_one_way.1 e1 X1 none (pfStep e1 (X1, none)) rfl rfl

/-- C8 (amended): any `partial_fit` call for which input checking is in
effect (always when the engine is uninitialized or `check_input` is left
`None`; the default) and any `transform` call on a fitted engine fails on a
batch containing non-finite values with a fatal `ValueError` raised by
`check_array` before any state is touched, leaving the engine exactly as it
was.  (A `partial_fit` call on an initialized engine with
`check_input=False` skips this validation — see the counterexample.) -/
theorem nonfinite_rejected (X : Batch) (hnf : batchFinite X = false) :
    (∀ (e : Engine) (ci : Option Bool), effCheck e ci = true →
      DictFact.partial_fit e X ci =
        .error (.valueError
          "Input contains NaN, infinity or a value too large for dtype float64.") ∧
      pfStep e (X, ci) = e)
    ∧ (∀ (e : Engine) (s : ImplState), e.impl = some s →
      DictFact.transform e X =
        .error (.valueError
          "Input contains NaN, infinity or a value too large for dtype float64.")) := by
  have hca : check_array X =
      .error (.valueError
        "Input contains NaN, infinity or a value too large for dtype float64.") := by
    unfold check_array
    rw [if_pos hnf]
  constructor
  · intro e ci heff
    have hpf : DictFact.partial_fit e X ci =
        .error (.valueError
          "Input contains NaN, infinity or a value too large for dtype float64.") := by
      unfold DictFact.partial_fit
      rw [if_pos heff, hca]
    refine ⟨hpf, ?_⟩
    unfold pfStep
    rw [hpf]
  · intro e s hs
    unfold DictFact.transform
    rw [hs, hca]

/-- C8 counterexample: on the initialized engine `e1`, a `partial_fit`
call with `check_input=False` on a batch holding a non-finite value raises
nothing — it processes the row and advances `total_counter` from 1 to 2,
contradicting "every call ... whose input batch contains non-finite values
fails with a fatal input error".  (`fit` itself issues such calls.) -/
theorem check_input_false_skips_validation :
    batchFinite Xbad = false ∧
    DictFact.partial_fit e1 Xbad (some false) =
      .ok { e1 with impl := some (DictFactImpl.partial_fit s1 Xbad) } ∧
    Engine.total_counter (pfStep e1 (Xbad, some false)) = 2 ∧
    Engine.total_counter e1 = 1 :=
  ⟨rfl, rfl, rfl, rfl⟩

/-- C8 witness: the amended statement at concrete inputs — a validated
`partial_fit` and a fitted-engine `transform` both reject the non-finite
batch `Xbad` and leave the engine untouched. -/
theorem nonfinite_rejected_w :
    (DictFact.partial_fit e0 Xbad none =
      .error (.valueError
        "Input contains NaN, infinity or a value too large for dtype float64.") ∧
     pfStep e0 (Xbad, none) = e0) ∧
    DictFact.transform e1 Xbad =
      .error (.valueError
        "Input contains NaN, infinity or a value too large for dtype float64.") :=
  ⟨(nonfinite_rejected Xbad rfl).1 e0 none rfl,
   (nonfinite_rejected Xbad rfl).2 e1 s1 rfl⟩

/-- C7: for a fitted engine and a batch `X` with `n > 0` rows, `score(X)`
is exactly the reconstruction loss `½‖X − code·scaled_D‖²_F` plus the
elastic-net code penalty `alpha·(ρ‖code‖₁ + (1−ρ)/2·‖code‖²_F)`, divided by
`n`, where `(code, scaled_D)` is whatever pair `transform(X)` produced —
the statement holds for every such pair. -/
theorem score_formula {n f k : ℕ} (alpha pen_l1_ratio : ℚ)
    (X : Matrix (Fin n) (Fin f) ℚ) (code : Matrix (Fin n) (Fin k) ℚ)
    (scaled_D : Matrix (Fin k) (Fin f) ℚ) (hn : 0 < n) :
    DictFact.score alpha pen_l1_ratio X code scaled_D =
      scoreSpec alpha pen_l1_ratio X code scaled_D := by
  simp only [DictFact.score, scoreSpec, frobNormSq, entryL1]
  ring

/-- C7 witness: the score identity at a concrete 1×1 instance. -/
theorem score_formula_w :
    0 < 1 ∧
    DictFact.score 1 (1/2) (!![3] : Matrix (Fin 1) (Fin 1) ℚ) !![2] !![1] =
      scoreSpec 1 (1/2) (!![3] : Matrix (Fin 1) (Fin 1) ℚ) !![2] !![1] :=
  ⟨Nat.one_pos, score_formula 1 (1/2) !![3] !![2] !![1] Nat.one_pos⟩

end Modl

